import Mathlib

/-!
Verification development for the rate-limited, retrying NetBox API client
core: the token-bucket rate limiter (`src/netbox_geo/netbox/rate_limiter.py`)
and the exponential-backoff retry executor
(`src/netbox_geo/netbox/client.py`), shallowly embedded.

Modelling conventions:
* Python floats are modelled as rationals (`ℚ`); every numeric fact proved
  below is exact in binary floating point as well.
* Wall-clock reads (`time.time()`) are replaced by explicit elapsed
  durations passed to each operation; `time.sleep(d)` is modelled by the
  elapsed duration of the following refill being at least `d`.
* A raised Python exception is an explicit constructor of the operation's
  result type (`RateLimitError`, `ZeroDivisionError`, `NetBoxAPIError`).
-/

namespace NetboxGeo

/-- State of `RateLimiter` (`rate_limiter.py`): `tokens`, `max_tokens` and
`refill_rate` as set up by `__init__`; the `last_refill` timestamp is
replaced by passing explicit elapsed durations to `refill`/`acquire`. -/
structure RateLimiter where
  calls_per_minute : ℕ
  tokens : ℚ
  max_tokens : ℚ
  refill_rate : ℚ
deriving DecidableEq

/-- `RateLimiter.__init__`: the bucket starts full, the refill rate is
`calls_per_minute / 60` tokens per second. -/
def RateLimiter.init (calls_per_minute : ℕ) : RateLimiter :=
  { calls_per_minute := calls_per_minute
    tokens := calls_per_minute
    max_tokens := calls_per_minute
    refill_rate := (calls_per_minute : ℚ) / 60 }

/-- `RateLimiter._refill`: add `elapsed * refill_rate` tokens, capped at
`max_tokens`. `elapsed` is the time since the previous refill. -/
def RateLimiter.refill (s : RateLimiter) (elapsed : ℚ) : RateLimiter :=
  { s with tokens := min s.max_tokens (s.tokens + elapsed * s.refill_rate) }

/-- Result of one `RateLimiter.acquire` call: `ok` is `return True`,
`rateLimitError` is the raised `RateLimitError` (with its `retry_after`),
`zeroDivisionError` is the `ZeroDivisionError` Python raises when the
wait/retry-after computation divides by a zero `refill_rate` (capacity 0).
Each constructor records the limiter state when control leaves `acquire`. -/
inductive AcquireOutcome where
  | ok (s : RateLimiter)
  | rateLimitError (retry_after : ℚ) (s : RateLimiter)
  | zeroDivisionError (s : RateLimiter)
deriving DecidableEq

/-- The limiter state when control leaves `acquire`, whatever the outcome. -/
def AcquireOutcome.state : AcquireOutcome → RateLimiter
  | .ok s => s
  | .rateLimitError _ s => s
  | .zeroDivisionError s => s

/-- `RateLimiter.acquire(tokens, blocking)`. `elapsed1` is the time elapsed
at the first refill; `elapsed2` the time that actually passes during
`time.sleep(wait_time)` in the blocking path (a faithful run has
`wait_time ≤ elapsed2`). Mirrors the source line by line: refill, deduct and
return `True` if the balance covers the request, otherwise raise
`RateLimitError` when non-blocking, and when blocking compute the wait
time, sleep outside the lock, refill again and deduct. -/
def RateLimiter.acquire (s : RateLimiter) (tokens : ℕ) (blocking : Bool)
    (elapsed1 elapsed2 : ℚ) : AcquireOutcome :=
  let s1 := s.refill elapsed1
  if (tokens : ℚ) ≤ s1.tokens then
    .ok { s1 with tokens := s1.tokens - tokens }
  else if !blocking then
    if s1.refill_rate = 0 then .zeroDivisionError s1
    else .rateLimitError (((tokens : ℚ) - s1.tokens) / s1.refill_rate) s1
  else
    if s1.refill_rate = 0 then .zeroDivisionError s1
    else
      let s2 := s1.refill elapsed2
      .ok { s2 with tokens := s2.tokens - tokens }

/-- The wait/retry-after formula of `acquire`:
`(tokens - self.tokens) / self.refill_rate`, evaluated on the state after
the first refill. -/
def RateLimiter.waitTime (s1 : RateLimiter) (tokens : ℕ) : ℚ :=
  ((tokens : ℚ) - s1.tokens) / s1.refill_rate

/-- One `acquire` call in a sequence: its arguments, with the two elapsed
durations observed by its refills. -/
structure AcquireCall where
  req : ℕ
  blocking : Bool
  elapsed1 : ℚ
  elapsed2 : ℚ
deriving DecidableEq

/-- The limiter state after one `acquire` call. -/
def RateLimiter.step (s : RateLimiter) (c : AcquireCall) : RateLimiter :=
  (s.acquire c.req c.blocking c.elapsed1 c.elapsed2).state

/-- All limiter states observed along a sequence of `acquire` calls,
starting state included. -/
def RateLimiter.trace (s : RateLimiter) : List AcquireCall → List RateLimiter
  | [] => [s]
  | c :: cs => s :: (s.step c).trace cs

/-- Physical side conditions of one call: elapsed time is non-negative, and
in blocking mode `time.sleep(wait_time)` lets at least `wait_time` pass
before the second refill. -/
def ValidCall (s : RateLimiter) (c : AcquireCall) : Prop :=
  0 ≤ c.elapsed1 ∧
  (c.blocking = true → (s.refill c.elapsed1).waitTime c.req ≤ c.elapsed2)

instance ValidCall.dec (s : RateLimiter) (c : AcquireCall) :
    Decidable (ValidCall s c) := by
  unfold ValidCall; exact inferInstance

/-- A whole sequence of calls is physically valid, each one from the state
the previous calls produced. -/
def ValidRun : RateLimiter → List AcquireCall → Prop
  | _, [] => True
  | s, c :: cs => ValidCall s c ∧ ValidRun (s.step c) cs

instance ValidRun.dec : (s : RateLimiter) → (cs : List AcquireCall) →
    Decidable (ValidRun s cs)
  | _, [] => .isTrue trivial
  | s, c :: cs => by
      unfold ValidRun
      exact @instDecidableAnd _ _ _ (ValidRun.dec (s.step c) cs)

/-- The capacity invariant of the spec's data model:
`0 <= tokens <= capacity`. -/
def Inv (s : RateLimiter) : Prop :=
  0 ≤ s.tokens ∧ s.tokens ≤ s.max_tokens

instance Inv.dec (s : RateLimiter) : Decidable (Inv s) := by
  unfold Inv; exact inferInstance

/-!
Embedding of `NetBoxClient._retry_with_backoff` (`client.py`). The wrapped
operation is a function from the 0-based attempt index to what that attempt
does; errors are opaque identifiers (`ℕ`). `transient` stands for the two
retried exception classes (`pynetbox.core.query.RequestError` and requests'
`RequestException`, which the loop treats identically); `unexpected` stands
for any other exception, which the loop converts into an immediately raised
`NetBoxAPIError` ("Unexpected error"). -/

/-- What one attempt of the wrapped operation does. -/
inductive OpResult (α : Type) where
  | success (v : α)
  | transient (e : ℕ)
  | unexpected (e : ℕ)
deriving DecidableEq

/-- The transient error of an attempt, when it is one. -/
def OpResult.transientErr? : OpResult α → Option ℕ
  | .transient e => some e
  | _ => none

/-- How one `_retry_with_backoff` call ends: the returned value, the
`NetBoxAPIError` raised on an unexpected exception, or the terminal
`NetBoxAPIError` ("Failed after ... retries") carrying the last transient
error (`none` only in the unreachable zero-iteration case). -/
inductive RunOutcome (α : Type) where
  | success (v : α)
  | unexpectedError (e : ℕ)
  | exhausted (last : Option ℕ)
deriving DecidableEq

/-- Observable behaviour of one `_retry_with_backoff` call: how many times
the operation was invoked, the backoff sleeps in order (the `k`-th entry is
the sleep between attempt `k` and attempt `k + 1`), and the final outcome. -/
structure RunStats (α : Type) where
  attempts : ℕ
  sleeps : List ℕ
  outcome : RunOutcome α
deriving DecidableEq

/-- The retry loop `for attempt in range(retries + 1)` from the iteration
with index `attempt` on, with `remaining` iterations left (the caller passes
`remaining = retries + 1 - attempt`, so the source's `attempt < retries`
test is `remaining ≥ 2`). On success return immediately; on an unexpected
exception raise `NetBoxAPIError` immediately; on a transient error sleep
`2 ** attempt` seconds and continue when iterations remain, else fall out of
the loop and raise the exhaustion error with the last transient exception. -/
def retryGo (op : ℕ → OpResult α) (attempt : ℕ) : ℕ → RunStats α
  | 0 => ⟨0, [], .exhausted none⟩
  | 1 =>
    match op attempt with
    | .success v => ⟨1, [], .success v⟩
    | .transient e => ⟨1, [], .exhausted (some e)⟩
    | .unexpected e => ⟨1, [], .unexpectedError e⟩
  | n + 2 =>
    match op attempt with
    | .success v => ⟨1, [], .success v⟩
    | .transient _ =>
      let r := retryGo op (attempt + 1) (n + 1)
      ⟨r.attempts + 1, 2 ^ attempt :: r.sleeps, r.outcome⟩
    | .unexpected e => ⟨1, [], .unexpectedError e⟩

/-- `_retry_with_backoff(func, max_retries = retries)`: the loop starting at
attempt 0 with `retries + 1` iterations. -/
def retryWithBackoff (op : ℕ → OpResult α) (retries : ℕ) : RunStats α :=
  retryGo op 0 (retries + 1)

/-- Observable behaviour of a `_retry_with_backoff` run with the rate
limiter threaded through: attempts of the operation, backoff sleeps, the
limiter state at the end, and the outcome. -/
structure LimiterRun (α : Type) where
  attempts : ℕ
  sleeps : List ℕ
  limiter : RateLimiter
  outcome : RunOutcome α
deriving DecidableEq

/-- The retry loop with the `self.rate_limiter.acquire()` call of each
iteration made explicit: before each attempt the loop acquires 1 token in
blocking mode (`sched i` gives the elapsed durations seen by the `i`-th
acquire). An exception raised by `acquire` itself (the capacity-0
`ZeroDivisionError`) is caught by the generic handler and re-raised as
`NetBoxAPIError` without the operation having been invoked — those branches
count 0 attempts and carry the opaque error id 0 (a blocking acquire never
produces `rateLimitError`; that branch is present only for totality). -/
def retryGoL (op : ℕ → OpResult α) (sched : ℕ → ℚ × ℚ) (attempt : ℕ) :
    ℕ → RateLimiter → LimiterRun α
  | 0, lim => ⟨0, [], lim, .exhausted none⟩
  | 1, lim =>
    match lim.acquire 1 true (sched attempt).1 (sched attempt).2 with
    | .ok lim' =>
      match op attempt with
      | .success v => ⟨1, [], lim', .success v⟩
      | .transient e => ⟨1, [], lim', .exhausted (some e)⟩
      | .unexpected e => ⟨1, [], lim', .unexpectedError e⟩
    | .rateLimitError _ lim' => ⟨0, [], lim', .unexpectedError 0⟩
    | .zeroDivisionError lim' => ⟨0, [], lim', .unexpectedError 0⟩
  | n + 2, lim =>
    match lim.acquire 1 true (sched attempt).1 (sched attempt).2 with
    | .ok lim' =>
      match op attempt with
      | .success v => ⟨1, [], lim', .success v⟩
      | .transient _ =>
        let r := retryGoL op sched (attempt + 1) (n + 1) lim'
        ⟨r.attempts + 1, 2 ^ attempt :: r.sleeps, r.limiter, r.outcome⟩
      | .unexpected e => ⟨1, [], lim', .unexpectedError e⟩
    | .rateLimitError _ lim' => ⟨0, [], lim', .unexpectedError 0⟩
    | .zeroDivisionError lim' => ⟨0, [], lim', .unexpectedError 0⟩

/-- `_retry_with_backoff` with the limiter threaded through. -/
def retryWithBackoffL (op : ℕ → OpResult α) (sched : ℕ → ℚ × ℚ)
    (retries : ℕ) (lim : RateLimiter) : LimiterRun α :=
  retryGoL op sched 0 (retries + 1) lim

/-- `NetBoxClient`: the pynetbox client is abstracted to the list of
endpoint names that are attributes of it (`getattr` succeeds exactly on
those), plus the configured retry ceiling and the shared rate limiter. -/
structure NetBoxClient where
  validEndpoints : List String
  max_retries : ℕ
  rate_limiter : RateLimiter
deriving DecidableEq

/-- How a public client operation ends: a completed retry run, or the typed
`NetBoxAPIError` ("Invalid endpoint") raised when `getattr` fails, recording
the (untouched) limiter state at that moment. -/
inductive ClientOutcome (α : Type) where
  | ok (r : LimiterRun α)
  | invalidEndpoint (lim : RateLimiter)
deriving DecidableEq

/-- `NetBoxClient.get`: `getattr(self._client, endpoint)` then
`_retry_with_backoff(endpoint_obj.all, ...)`; a missing attribute raises the
typed `NetBoxAPIError("Invalid endpoint")` before any retry machinery runs.
The remote behaviour of `.all` is the abstract `op`. -/
def NetBoxClient.get (c : NetBoxClient) (endpoint : String)
    (op : ℕ → OpResult α) (sched : ℕ → ℚ × ℚ) : ClientOutcome α :=
  if endpoint ∈ c.validEndpoints then
    .ok (retryWithBackoffL op sched c.max_retries c.rate_limiter)
  else .invalidEndpoint c.rate_limiter

/-- `NetBoxClient.create`: same guard, wrapping `endpoint_obj.create`. -/
def NetBoxClient.create (c : NetBoxClient) (endpoint : String)
    (op : ℕ → OpResult α) (sched : ℕ → ℚ × ℚ) : ClientOutcome α :=
  if endpoint ∈ c.validEndpoints then
    .ok (retryWithBackoffL op sched c.max_retries c.rate_limiter)
  else .invalidEndpoint c.rate_limiter

/-- `NetBoxClient.bulk_create`: same guard, wrapping `endpoint_obj.create`
on a list payload. -/
def NetBoxClient.bulk_create (c : NetBoxClient) (endpoint : String)
    (op : ℕ → OpResult α) (sched : ℕ → ℚ × ℚ) : ClientOutcome α :=
  if endpoint ∈ c.validEndpoints then
    .ok (retryWithBackoffL op sched c.max_retries c.rate_limiter)
  else .invalidEndpoint c.rate_limiter

/-- Two sequential `_retry_with_backoff` runs (`endpoint_obj.get` followed
by `obj.save` or `obj.delete`): the second run happens only when the first
returned normally; an error raised by the first propagates. -/
def NetBoxClient.runTwice (c : NetBoxClient) (op1 op2 : ℕ → OpResult α)
    (sched1 sched2 : ℕ → ℚ × ℚ) : LimiterRun α :=
  let r1 := retryWithBackoffL op1 sched1 c.max_retries c.rate_limiter
  match r1.outcome with
  | .success _ =>
    let r2 := retryWithBackoffL op2 sched2 c.max_retries r1.limiter
    ⟨r1.attempts + r2.attempts, r1.sleeps ++ r2.sleeps, r2.limiter, r2.outcome⟩
  | o => ⟨r1.attempts, r1.sleeps, r1.limiter, o⟩

/-- `NetBoxClient.update`: `getattr` guard, then retried `get` and `save`. -/
def NetBoxClient.update (c : NetBoxClient) (endpoint : String)
    (opGet opSave : ℕ → OpResult α) (sched1 sched2 : ℕ → ℚ × ℚ) :
    ClientOutcome α :=
  if endpoint ∈ c.validEndpoints then
    .ok (c.runTwice opGet opSave sched1 sched2)
  else .invalidEndpoint c.rate_limiter

/-- `NetBoxClient.delete`: `getattr` guard, then retried `get` and
`delete`. -/
def NetBoxClient.delete (c : NetBoxClient) (endpoint : String)
    (opGet opDel : ℕ → OpResult α) (sched1 sched2 : ℕ → ℚ × ℚ) :
    ClientOutcome α :=
  if endpoint ∈ c.validEndpoints then
    .ok (c.runTwice opGet opDel sched1 sched2)
  else .invalidEndpoint c.rate_limiter

/-! Helper lemmas about the rate limiter. -/

theorem step_max_tokens (s : RateLimiter) (c : AcquireCall) :
    (s.step c).max_tokens = s.max_tokens := by
  simp only [RateLimiter.step, RateLimiter.acquire]
  split_ifs <;> rfl

theorem step_refill_rate (s : RateLimiter) (c : AcquireCall) :
    (s.step c).refill_rate = s.refill_rate := by
  simp only [RateLimiter.step, RateLimiter.acquire]
  split_ifs <;> rfl

theorem refill_tokens_le (s : RateLimiter) (e : ℚ) :
    (s.refill e).tokens ≤ s.max_tokens :=
  min_le_left _ _

theorem refill_tokens_nonneg (s : RateLimiter) (e : ℚ) (h0 : 0 ≤ s.tokens)
    (hmax : 0 ≤ s.max_tokens) (he : 0 ≤ e) (hr : 0 ≤ s.refill_rate) :
    0 ≤ (s.refill e).tokens :=
  le_min hmax (add_nonneg h0 (mul_nonneg he hr))

theorem Inv.step_preserved {s : RateLimiter} (c : AcquireCall)
    (hs : Inv s) (hr : 0 ≤ s.refill_rate) (hv : ValidCall s c)
    (hcap : c.blocking = true → (c.req : ℚ) ≤ s.max_tokens) :
    Inv (s.step c) := by
  obtain ⟨h0, h1⟩ := hs
  obtain ⟨he1, hsleep⟩ := hv
  have hmax0 : 0 ≤ s.max_tokens := le_trans h0 h1
  have h1le : (s.refill c.elapsed1).tokens ≤ s.max_tokens := refill_tokens_le s _
  have h10 : 0 ≤ (s.refill c.elapsed1).tokens :=
    refill_tokens_nonneg s _ h0 hmax0 he1 hr
  have hreq0 : (0 : ℚ) ≤ (c.req : ℚ) := Nat.cast_nonneg _
  have hmeq1 : (s.refill c.elapsed1).max_tokens = s.max_tokens := rfl
  have hmeq2 : ((s.refill c.elapsed1).refill c.elapsed2).max_tokens = s.max_tokens := rfl
  simp only [RateLimiter.step, RateLimiter.acquire]
  split_ifs with hA hB hC hD
  · -- sufficient balance: deduct
    exact ⟨sub_nonneg.mpr hA, by simp only [AcquireOutcome.state]; linarith⟩
  · exact ⟨h10, h1le⟩
  · exact ⟨h10, h1le⟩
  · exact ⟨h10, h1le⟩
  · -- blocking path: refill after the sleep, then deduct
    have hblock : c.blocking = true := by revert hB; cases c.blocking <;> simp
    have hrrate : (s.refill c.elapsed1).refill_rate = s.refill_rate := rfl
    have hrpos : 0 < s.refill_rate :=
      lt_of_le_of_ne hr (fun h => hD (hrrate.trans h.symm))
    have hwait : ((c.req : ℚ) - (s.refill c.elapsed1).tokens) / s.refill_rate ≤
        c.elapsed2 := hsleep hblock
    have hcov : (c.req : ℚ) ≤ (s.refill c.elapsed1).tokens +
        c.elapsed2 * s.refill_rate := by
      have := (div_le_iff₀ hrpos).mp hwait
      linarith
    have hreqcap : (c.req : ℚ) ≤ s.max_tokens := hcap hblock
    refine ⟨?_, ?_⟩
    · exact sub_nonneg.mpr (le_min hreqcap hcov)
    · have hle : ((s.refill c.elapsed1).refill c.elapsed2).tokens ≤ s.max_tokens :=
        refill_tokens_le _ _
      simp only [AcquireOutcome.state]
      linarith

theorem inv_trace_aux : (cs : List AcquireCall) → (s : RateLimiter) →
    Inv s → 0 ≤ s.refill_rate → ValidRun s cs →
    (∀ c ∈ cs, c.blocking = true → (c.req : ℚ) ≤ s.max_tokens) →
    ∀ t ∈ s.trace cs, Inv t
  | [], s, hs, _, _, _ => by
      intro t ht
      simp only [RateLimiter.trace, List.mem_singleton] at ht
      exact ht ▸ hs
  | c :: cs, s, hs, hr, hv, hcap => by
      intro t ht
      obtain ⟨hvc, hvr⟩ := hv
      simp only [RateLimiter.trace, List.mem_cons] at ht
      rcases ht with rfl | ht
      · exact hs
      · exact inv_trace_aux cs (s.step c)
          (Inv.step_preserved c hs hr hvc (hcap c (List.mem_cons_self c cs)))
          ((step_refill_rate s c).symm ▸ hr) hvr
          (fun c' hc' hb => (step_max_tokens s c).symm ▸
            hcap c' (List.mem_cons_of_mem c hc') hb)
          t ht

/-- Claim C1, amended. As stated the claim fails: a blocking `acquire` of
more tokens than the capacity deducts unconditionally after the sleep and
drives the balance negative (see the counterexample). What holds on the
code: at every observation point of every sequence of `acquire` calls —
blocking or non-blocking, with non-negative elapsed time and sleeps lasting
at least the computed wait — the balance satisfies
`0 ≤ tokens ≤ capacity`, provided every blocking call requests at most
`capacity` tokens. (The upper bound needs no such proviso; the lower bound
does.) -/
theorem rateLimiter_capacity_invariant (cpm : ℕ) (cs : List AcquireCall)
    (hv : ValidRun (RateLimiter.init cpm) cs)
    (hcap : ∀ c ∈ cs, c.blocking = true → (c.req : ℚ) ≤ (cpm : ℚ)) :
    ∀ t ∈ (RateLimiter.init cpm).trace cs, Inv t :=
  inv_trace_aux cs (RateLimiter.init cpm)
    ⟨Nat.cast_nonneg cpm, le_refl _⟩
    (div_nonneg (Nat.cast_nonneg cpm) (by norm_num))
    hv hcap

/-- Witness for the amended C1 at a concrete input: capacity 2, one
non-blocking acquire of 1 token; the state after the call satisfies the
invariant. -/
theorem rateLimiter_capacity_invariant_witness :
    Inv ((RateLimiter.init 2).step ⟨1, false, 0, 0⟩) :=
  rateLimiter_capacity_invariant 2 [⟨1, false, 0, 0⟩]
    (by simp [ValidRun, ValidCall])
    (by simp)
    ((RateLimiter.init 2).step ⟨1, false, 0, 0⟩)
    (by simp [RateLimiter.trace])

/-- Claim C1 counterexample: a physically valid sequence of one blocking
`acquire` of 2 tokens on a capacity-1 bucket (non-negative elapsed time,
sleep of exactly the computed wait time, 60 s) ends with a negative balance,
`tokens = -1`. -/
theorem rateLimiter_capacity_invariant_cex :
    ValidRun (RateLimiter.init 1) [⟨2, true, 0, 60⟩] ∧
    ((RateLimiter.init 1).step ⟨2, true, 0, 60⟩).tokens < 0 := by
  constructor
  · norm_num [ValidRun, ValidCall, RateLimiter.init, RateLimiter.refill,
      RateLimiter.waitTime]
  · norm_num [RateLimiter.step, RateLimiter.acquire, RateLimiter.refill,
      RateLimiter.init, AcquireOutcome.state]

/-- Claim C2, amended. As stated the claim fails: in blocking mode a request
strictly greater than capacity is granted after a single sleep (see the
counterexample), and nothing is checked at construction. What holds: in
non-blocking mode, with a positive refill rate, a request strictly greater
than the capacity never succeeds — every such call raises the typed
`RateLimitError`, with a strictly positive `retry_after`. -/
theorem acquire_over_capacity_nonblocking (s : RateLimiter) (req : ℕ)
    (e1 e2 : ℚ) (hr : 0 < s.refill_rate) (hreq : s.max_tokens < (req : ℚ)) :
    s.acquire req false e1 e2 =
      .rateLimitError (((req : ℚ) - (s.refill e1).tokens) / s.refill_rate)
        (s.refill e1) ∧
    0 < ((req : ℚ) - (s.refill e1).tokens) / s.refill_rate := by
  have hlt : (s.refill e1).tokens < (req : ℚ) :=
    lt_of_le_of_lt (refill_tokens_le s e1) hreq
  constructor
  · simp only [RateLimiter.acquire, Bool.not_false, if_true]
    rw [if_neg (not_le.mpr hlt),
      if_neg (show ¬(s.refill e1).refill_rate = 0 from hr.ne')]
    rfl
  · exact div_pos (sub_pos.mpr hlt) hr

/-- Witness for the amended C2 at a concrete input: capacity 1, non-blocking
request of 2 tokens fails with the typed error and `retry_after = 60 > 0`. -/
theorem acquire_over_capacity_nonblocking_witness :
    (RateLimiter.init 1).acquire 2 false 0 0 =
      .rateLimitError ((((2 : ℕ) : ℚ) - ((RateLimiter.init 1).refill 0).tokens) /
        (RateLimiter.init 1).refill_rate) ((RateLimiter.init 1).refill 0) ∧
    0 < (((2 : ℕ) : ℚ) - ((RateLimiter.init 1).refill 0).tokens) /
        (RateLimiter.init 1).refill_rate :=
  acquire_over_capacity_nonblocking (RateLimiter.init 1) 2 0 0
    (by norm_num [RateLimiter.init]) (by norm_num [RateLimiter.init])

/-- Claim C2 counterexample: on a capacity-1 bucket, a blocking `acquire` of
2 tokens (a request strictly greater than capacity) succeeds — it returns
`True` after one sleep, with the balance left at `-1`. -/
theorem acquire_over_capacity_blocking_cex :
    (RateLimiter.init 1).acquire 2 true 0 60 = .ok ⟨1, -1, 1, 1/60⟩ := by
  norm_num [RateLimiter.acquire, RateLimiter.refill, RateLimiter.init]

/-- Claim C3, amended. As stated the claim fails: the error raised is not a
typed one. What holds: a `RateLimiter` built with `calls_per_minute = 0`
does fail fast on every `acquire` of at least one token, in both modes —
the call raises immediately rather than hanging — but what it raises is the
unclassified `ZeroDivisionError` from dividing by the zero `refill_rate` in
the wait-time/retry-after computation, not a typed `RateLimitError`. -/
theorem acquire_capacity_zero_fails_fast (req : ℕ) (hreq : 1 ≤ req)
    (b : Bool) (e1 e2 : ℚ) :
    (RateLimiter.init 0).acquire req b e1 e2 =
      .zeroDivisionError (RateLimiter.init 0) := by
  have h1 : (RateLimiter.init 0).refill e1 = RateLimiter.init 0 := by
    simp [RateLimiter.refill, RateLimiter.init]
  have hpos : (0 : ℚ) < (req : ℚ) := by exact_mod_cast hreq
  have hno : ¬((req : ℚ) ≤ (RateLimiter.init 0).tokens) := by
    simp only [RateLimiter.init, not_le]
    exact_mod_cast hpos
  have hrate : (RateLimiter.init 0).refill_rate = 0 := by
    simp [RateLimiter.init]
  cases b <;>
  · simp only [RateLimiter.acquire, h1]
    rw [if_neg hno]
    simp [hrate]

/-- Witness for the amended C3 at a concrete input: capacity 0, non-blocking
`acquire` of 2 tokens with elapsed times 3 and 4. -/
theorem acquire_capacity_zero_fails_fast_witness :
    (RateLimiter.init 0).acquire 2 false 3 4 =
      .zeroDivisionError (RateLimiter.init 0) :=
  acquire_capacity_zero_fails_fast 2 (by norm_num) false 3 4

/-- Claim C3 counterexample: on a capacity-0 limiter, a blocking `acquire(1)`
ends in the unclassified `ZeroDivisionError`, not in a typed error (the
outcome is the `zeroDivisionError` constructor, not `rateLimitError`). -/
theorem acquire_capacity_zero_cex :
    (RateLimiter.init 0).acquire 1 true 0 0 =
      .zeroDivisionError (RateLimiter.init 0) := by
  norm_num [RateLimiter.acquire, RateLimiter.refill, RateLimiter.init]

/-- Claim C4, amended. As stated the claim fails: there is no
re-verification (see the counterexample). What holds: in blocking mode,
when the balance after the first refill is insufficient and the refill rate
is non-zero, `acquire` computes the wait time, releases the lock, sleeps,
and on re-entry refills again and deducts unconditionally — it returns
`True` with the post-sleep balance minus the request, whether or not that
balance covers the request. -/
theorem blocking_unconditional_deduct (s : RateLimiter) (req : ℕ) (e1 e2 : ℚ)
    (hins : (s.refill e1).tokens < (req : ℚ)) (hr : s.refill_rate ≠ 0) :
    s.acquire req true e1 e2 =
      .ok { (s.refill e1).refill e2 with
            tokens := ((s.refill e1).refill e2).tokens - (req : ℚ) } := by
  simp only [RateLimiter.acquire, Bool.not_true]
  rw [if_neg (not_le.mpr hins), if_neg (by norm_num : ¬(false = true)),
    if_neg (show ¬(s.refill e1).refill_rate = 0 from hr)]

/-- Witness for the amended C4 at a concrete input: capacity 1, blocking
request of 2 tokens, sleep of 60 s: returns `ok` with the post-sleep balance
minus the request. -/
theorem blocking_unconditional_deduct_witness :
    (RateLimiter.init 1).acquire 2 true 0 60 =
      .ok { ((RateLimiter.init 1).refill 0).refill 60 with
            tokens := (((RateLimiter.init 1).refill 0).refill 60).tokens -
              ((2 : ℕ) : ℚ) } :=
  blocking_unconditional_deduct (RateLimiter.init 1) 2 0 60
    (by norm_num [RateLimiter.refill, RateLimiter.init])
    (by norm_num [RateLimiter.init])

/-- Claim C4 counterexample: capacity 1, blocking `acquire` of 2 tokens,
sleep of exactly the computed wait (60 s). After the post-sleep refill the
balance is 1, which does not cover the request of 2 — yet the call deducts
and returns `ok` with balance `-1 < 0`. Had the code re-verified coverage
before deducting, it could not have produced a negative balance. -/
theorem blocking_no_reverify_cex :
    (((RateLimiter.init 1).refill 0).refill 60).tokens < 2 ∧
    ((RateLimiter.init 1).acquire 2 true 0 60 = .ok ⟨1, -1, 1, 1/60⟩ ∧
      (-1 : ℚ) < 0) := by
  refine ⟨?_, ?_, by norm_num⟩
  · norm_num [RateLimiter.refill, RateLimiter.init]
  · norm_num [RateLimiter.acquire, RateLimiter.refill, RateLimiter.init]

/-- Claim C5, confirmed. Capacity 1: the first non-blocking `acquire(1)`
succeeds (returns `True`, balance 0) — the non-blocking success path never
sleeps; an immediate second non-blocking `acquire(1)` with zero elapsed time
raises the typed `RateLimitError` whose `retry_after` equals
`(requested - tokens) / refill_rate = (1 - 0) / (1/60) = 60`, strictly
positive. -/
theorem nonblocking_fastfail_capacity_one :
    (RateLimiter.init 1).acquire 1 false 0 0 = .ok ⟨1, 0, 1, 1/60⟩ ∧
    (⟨1, 0, 1, 1/60⟩ : RateLimiter).acquire 1 false 0 0 =
      .rateLimitError (((1 : ℚ) - 0) / (1 / 60)) ⟨1, 0, 1, 1/60⟩ ∧
    (0 : ℚ) < ((1 : ℚ) - 0) / (1 / 60) := by
  norm_num [RateLimiter.acquire, RateLimiter.refill, RateLimiter.init]

/-! Helper lemmas about the retry executor. -/

theorem retryGo_success (op : ℕ → OpResult α) (a n : ℕ) (v : α)
    (hn : 1 ≤ n) (h : op a = .success v) :
    retryGo op a n = ⟨1, [], .success v⟩ := by
  match n, hn with
  | 1, _ => simp [retryGo, h]
  | n + 2, _ => simp [retryGo, h]

theorem retryGo_unexpected (op : ℕ → OpResult α) (a n e : ℕ)
    (hn : 1 ≤ n) (h : op a = .unexpected e) :
    retryGo op a n = ⟨1, [], .unexpectedError e⟩ := by
  match n, hn with
  | 1, _ => simp [retryGo, h]
  | n + 2, _ => simp [retryGo, h]

theorem retryGo_sleeps (op : ℕ → OpResult α) :
    ∀ (n a : ℕ), (retryGo op a n).sleeps =
      (List.range (retryGo op a n).sleeps.length).map (fun i => 2 ^ (a + i))
  | 0, a => by simp [retryGo]
  | 1, a => by cases h : op a <;> simp [retryGo, h]
  | n + 2, a => by
      cases h : op a
      · simp [retryGo, h]
      case transient e =>
        have ih := retryGo_sleeps op (n + 1) (a + 1)
        simp only [retryGo, h, List.length_cons]
        rw [List.range_succ_eq_map, List.map_cons, List.map_map]
        refine congrArg₂ List.cons (by simp) ?_
        rw [ih, List.length_map, List.length_range]
        refine List.map_congr_left fun i _ => ?_
        show 2 ^ (a + 1 + i) = 2 ^ (a + Nat.succ i)
        congr 1
        omega
      · simp [retryGo, h]

theorem retryGo_skip (op : ℕ → OpResult α) :
    ∀ (k a n : ℕ), (∀ i, i < k → ∃ e, op (a + i) = .transient e) → k + 1 ≤ n →
    retryGo op a n =
      ⟨(retryGo op (a + k) (n - k)).attempts + k,
       ((List.range k).map (fun i => 2 ^ (a + i))) ++ (retryGo op (a + k) (n - k)).sleeps,
       (retryGo op (a + k) (n - k)).outcome⟩
  | 0, a, n, _, _ => by simp
  | k + 1, a, n, h, hn => by
      obtain ⟨m, rfl⟩ : ∃ m, n = m + 2 := ⟨n - 2, by omega⟩
      obtain ⟨e, he⟩ := h 0 (Nat.succ_pos k)
      rw [Nat.add_zero] at he
      have ih := retryGo_skip op k (a + 1) (m + 1)
        (fun i hi => by
          simpa [Nat.add_assoc, Nat.add_comm 1 i, Nat.add_left_comm]
            using h (i + 1) (by omega))
        (by omega)
      have heq1 : a + 1 + k = a + (k + 1) := by omega
      have heq2 : m + 1 - k = m + 2 - (k + 1) := by omega
      simp only [retryGo, he]
      rw [ih, heq1, heq2]
      simp only [RunStats.mk.injEq]
      refine ⟨by omega, ?_, trivial⟩
      rw [List.range_succ_eq_map, List.map_cons, List.cons_append, List.map_map]
      refine congrArg₂ List.cons (by simp) (congrArg₂ (· ++ ·) ?_ rfl)
      refine List.map_congr_left fun i _ => ?_
      show 2 ^ (a + 1 + i) = 2 ^ (a + Nat.succ i)
      congr 1
      omega

theorem retryGo_attempts_le (op : ℕ → OpResult α) :
    ∀ (n a : ℕ), (retryGo op a n).attempts ≤ n
  | 0, a => by simp [retryGo]
  | 1, a => by cases h : op a <;> simp [retryGo, h]
  | n + 2, a => by
      cases h : op a
      · simp [retryGo, h]
      case transient e =>
        have ih := retryGo_attempts_le op (n + 1) (a + 1)
        simp only [retryGo, h]
        exact Nat.succ_le_succ ih
      · simp [retryGo, h]

theorem retryGo_exhausted_iff (op : ℕ → OpResult α) :
    ∀ (n a : ℕ) (l : Option ℕ), 1 ≤ n →
      ((retryGo op a n).outcome = .exhausted l ↔
        (∀ i, i < n → ∃ e, op (a + i) = .transient e) ∧
          l = (op (a + n - 1)).transientErr?)
  | 1, a, l, _ => by
      cases h : op a
      case success v =>
        simp only [retryGo, h]
        constructor
        · intro hc; exact absurd hc (by simp)
        · rintro ⟨hall, -⟩
          obtain ⟨e, he⟩ := hall 0 Nat.one_pos
          rw [Nat.add_zero, h] at he
          exact absurd he (by simp)
      case transient e =>
        have ha : a + 1 - 1 = a + 0 := by omega
        simp [retryGo, h, OpResult.transientErr?, Nat.lt_one_iff, ha, eq_comm]
      case unexpected e =>
        simp only [retryGo, h]
        constructor
        · intro hc; exact absurd hc (by simp)
        · rintro ⟨hall, -⟩
          obtain ⟨e', he⟩ := hall 0 Nat.one_pos
          rw [Nat.add_zero, h] at he
          exact absurd he (by simp)
  | n + 2, a, l, _ => by
      cases h : op a
      case success v =>
        simp only [retryGo, h]
        constructor
        · intro hc; exact absurd hc (by simp)
        · rintro ⟨hall, -⟩
          obtain ⟨e, he⟩ := hall 0 (by omega)
          rw [Nat.add_zero, h] at he
          exact absurd he (by simp)
      case transient e =>
        have ih := retryGo_exhausted_iff op (n + 1) (a + 1) l (by omega)
        simp only [retryGo, h]
        rw [show ((⟨(retryGo op (a + 1) (n + 1)).attempts + 1,
              2 ^ a :: (retryGo op (a + 1) (n + 1)).sleeps,
              (retryGo op (a + 1) (n + 1)).outcome⟩ : RunStats α).outcome =
            (retryGo op (a + 1) (n + 1)).outcome) from rfl, ih]
        constructor
        · rintro ⟨hall, hl⟩
          refine ⟨?_, ?_⟩
          · intro i hi
            cases i with
            | zero => exact ⟨e, by simpa using h⟩
            | succ j =>
              have hidx : a + (j + 1) = a + 1 + j := by omega
              rw [hidx]
              exact hall j (by omega)
          · have hidx : a + 1 + (n + 1) - 1 = a + (n + 2) - 1 := by omega
            rwa [hidx] at hl
        · rintro ⟨hall, hl⟩
          refine ⟨?_, ?_⟩
          · intro i hi
            have hidx : a + 1 + i = a + (i + 1) := by omega
            rw [hidx]
            exact hall (i + 1) (by omega)
          · have hidx : a + 1 + (n + 1) - 1 = a + (n + 2) - 1 := by omega
            rwa [hidx]
      case unexpected e =>
        simp only [retryGo, h]
        constructor
        · intro hc; exact absurd hc (by simp)
        · rintro ⟨hall, -⟩
          obtain ⟨e', he⟩ := hall 0 (by omega)
          rw [Nat.add_zero, h] at he
          exact absurd he (by simp)

/-- Claim C6, confirmed. In every run the list of backoff sleeps is
`[2^0, 2^1, …]` — the sleep recorded before retry `k + 1` is exactly `2^k`
seconds — and concretely, with `maxRetries = 3` and an operation raising a
transient error on every attempt, the executor makes exactly 4 attempts and
sleeps 1, 2, then 4 seconds between them, ending exhausted with the last
error. -/
theorem backoff_sequence :
    (∀ (op : ℕ → OpResult ℕ) (retries : ℕ),
        (retryWithBackoff op retries).sleeps =
          (List.range (retryWithBackoff op retries).sleeps.length).map
            (fun k => 2 ^ k)) ∧
    retryWithBackoff (fun _ => (OpResult.transient 0 : OpResult ℕ)) 3 =
      ⟨4, [1, 2, 4], .exhausted (some 0)⟩ := by
  constructor
  · intro op retries
    have h := retryGo_sleeps op (retries + 1) 0
    simpa [retryWithBackoff] using h
  · decide

/-- Claim C7, confirmed. An operation that fails transiently on attempts
`0, …, k - 1` and with a permanent (unexpected) error on attempt `k ≤
maxRetries` makes the executor stop right there: `k + 1` attempts in total,
only the `k` backoff sleeps that preceded attempt `k` (none after it), and
the permanent failure as outcome. In particular, an operation whose every
attempt raises a permanent error yields exactly 1 attempt and no sleep,
regardless of `maxRetries`. -/
theorem permanent_short_circuit :
    (∀ (op : ℕ → OpResult ℕ) (retries k e : ℕ), k ≤ retries →
        (∀ i, i < k → ∃ e', op i = .transient e') → op k = .unexpected e →
        retryWithBackoff op retries =
          ⟨k + 1, (List.range k).map (fun i => 2 ^ i), .unexpectedError e⟩) ∧
    (∀ (retries e : ℕ),
        retryWithBackoff (fun _ => (OpResult.unexpected e : OpResult ℕ)) retries =
          ⟨1, [], .unexpectedError e⟩) := by
  constructor
  · intro op retries k e hk hpre hke
    have hskip := retryGo_skip op k 0 (retries + 1)
      (fun i hi => by simpa using hpre i hi) (by omega)
    have hstop : retryGo op (0 + k) (retries + 1 - k) = ⟨1, [], .unexpectedError e⟩ :=
      retryGo_unexpected op (0 + k) (retries + 1 - k) e (by omega) (by simpa using hke)
    rw [retryWithBackoff, hskip, hstop]
    simp [Nat.add_comm]
  · intro retries e
    exact retryGo_unexpected _ 0 (retries + 1) e (by omega) rfl

/-- Witness for C7's general part at a concrete input: an operation whose
attempt 0 raises a permanent error, `maxRetries = 2`: exactly 1 attempt, no
sleep, immediate permanent failure. -/
theorem permanent_short_circuit_witness :
    retryWithBackoff (fun _ => (OpResult.unexpected 5 : OpResult ℕ)) 2 =
      ⟨0 + 1, (List.range 0).map (fun i => 2 ^ i), .unexpectedError 5⟩ :=
  permanent_short_circuit.1 (fun _ => (OpResult.unexpected 5 : OpResult ℕ)) 2 0 5
    (by decide) (fun i hi => absurd hi (Nat.not_lt_zero i)) rfl

/-- Claim C8, confirmed. An operation that fails transiently on attempts
`0, …, k - 1` and succeeds on attempt `k ≤ maxRetries` makes the executor
return `Success` with the operation's value immediately: `k + 1` attempts,
`k` backoff sleeps, no further attempts. In particular, failing transiently
on attempt 0 and succeeding on attempt 1 yields `Success(42)` after exactly
2 attempts and exactly 1 backoff sleep. -/
theorem success_short_circuit :
    (∀ (op : ℕ → OpResult ℕ) (retries k v : ℕ), k ≤ retries →
        (∀ i, i < k → ∃ e', op i = .transient e') → op k = .success v →
        retryWithBackoff op retries =
          ⟨k + 1, (List.range k).map (fun i => 2 ^ i), .success v⟩) ∧
    retryWithBackoff (fun i => if i = 0 then OpResult.transient 7 else .success 42) 1 =
      ⟨2, [1], .success 42⟩ := by
  constructor
  · intro op retries k v hk hpre hkv
    have hskip := retryGo_skip op k 0 (retries + 1)
      (fun i hi => by simpa using hpre i hi) (by omega)
    have hstop : retryGo op (0 + k) (retries + 1 - k) = ⟨1, [], .success v⟩ :=
      retryGo_success op (0 + k) (retries + 1 - k) v (by omega) (by simpa using hkv)
    rw [retryWithBackoff, hskip, hstop]
    simp [Nat.add_comm]
  · decide

/-- Witness for C8's general part at a concrete input: transient error on
attempt 0, success on attempt 1, `maxRetries = 3`: 2 attempts, one 1-second
sleep, `Success(9)`. -/
theorem success_short_circuit_witness :
    retryWithBackoff (fun i => if i = 0 then OpResult.transient 3 else .success 9) 3 =
      ⟨1 + 1, (List.range 1).map (fun i => 2 ^ i), .success 9⟩ :=
  success_short_circuit.1 (fun i => if i = 0 then OpResult.transient 3 else .success 9)
    3 1 9 (by decide)
    (fun i hi => ⟨3, by simp [Nat.lt_one_iff.mp hi]⟩) rfl

/-- Claim C9, confirmed. Every run of the executor invokes the operation at
most `maxRetries + 1` times, and the outcome is the exhausted-retries
failure carrying `l` exactly when every one of the attempts `0, …,
maxRetries` failed transiently and `l` is the transient error of the last
attempt (attempt `maxRetries`). -/
theorem retry_attempts_bound_exhausted :
    (∀ (op : ℕ → OpResult ℕ) (retries : ℕ),
        (retryWithBackoff op retries).attempts ≤ retries + 1) ∧
    (∀ (op : ℕ → OpResult ℕ) (retries : ℕ) (l : Option ℕ),
        (retryWithBackoff op retries).outcome = .exhausted l ↔
          (∀ i, i ≤ retries → ∃ e, op i = .transient e) ∧
            l = (op retries).transientErr?) := by
  constructor
  · intro op retries
    exact retryGo_attempts_le op (retries + 1) 0
  · intro op retries l
    have h := retryGo_exhausted_iff op (retries + 1) 0 l (by omega)
    simpa [retryWithBackoff, Nat.lt_succ_iff] using h

/-- Claim C10, confirmed. For an endpoint name that is not an attribute of
the underlying pynetbox client, each of the five public operations raises
the typed `NetBoxAPIError` ("Invalid endpoint") immediately: the outcome is
the `invalidEndpoint` constructor — no retry run happened, so zero attempts
of the remote operation were made, no backoff sleep occurred, and no
rate-limit token was acquired — and it carries the rate limiter exactly in
its entry state. -/
theorem invalid_endpoint_short_circuit (c : NetBoxClient) (endpoint : String)
    (opA opB : ℕ → OpResult ℕ) (schedA schedB : ℕ → ℚ × ℚ)
    (h : endpoint ∉ c.validEndpoints) :
    c.get endpoint opA schedA = .invalidEndpoint c.rate_limiter ∧
    c.create endpoint opA schedA = .invalidEndpoint c.rate_limiter ∧
    c.bulk_create endpoint opA schedA = .invalidEndpoint c.rate_limiter ∧
    c.update endpoint opA opB schedA schedB = .invalidEndpoint c.rate_limiter ∧
    c.delete endpoint opA opB schedA schedB = .invalidEndpoint c.rate_limiter := by
  refine ⟨?_, ?_, ?_, ?_, ?_⟩ <;>
    simp [NetBoxClient.get, NetBoxClient.create, NetBoxClient.bulk_create,
      NetBoxClient.update, NetBoxClient.delete, h]

/-- Witness for C10 at a concrete input: a client whose only endpoint is
`dcim`, queried with the endpoint `bogus`. -/
theorem invalid_endpoint_short_circuit_witness :
    (⟨["dcim"], 3, RateLimiter.init 100⟩ : NetBoxClient).get "bogus"
        (fun _ => .success 0) (fun _ => (0, 0)) =
      .invalidEndpoint (RateLimiter.init 100) ∧
    (⟨["dcim"], 3, RateLimiter.init 100⟩ : NetBoxClient).create "bogus"
        (fun _ => .success 0) (fun _ => (0, 0)) =
      .invalidEndpoint (RateLimiter.init 100) ∧
    (⟨["dcim"], 3, RateLimiter.init 100⟩ : NetBoxClient).bulk_create "bogus"
        (fun _ => .success 0) (fun _ => (0, 0)) =
      .invalidEndpoint (RateLimiter.init 100) ∧
    (⟨["dcim"], 3, RateLimiter.init 100⟩ : NetBoxClient).update "bogus"
        (fun _ => .success 0) (fun _ => .success 0) (fun _ => (0, 0)) (fun _ => (0, 0)) =
      .invalidEndpoint (RateLimiter.init 100) ∧
    (⟨["dcim"], 3, RateLimiter.init 100⟩ : NetBoxClient).delete "bogus"
        (fun _ => .success 0) (fun _ => .success 0) (fun _ => (0, 0)) (fun _ => (0, 0)) =
      .invalidEndpoint (RateLimiter.init 100) :=
  invalid_endpoint_short_circuit _ "bogus" _ _ _ _ (by simp)

end NetboxGeo
